import Mathlib

/-!
Verification of the 4coinsbot order-execution and market-lifecycle engine.

This file gives a shallow embedding, over `ℚ`, of the code fragments of
`src/order_executor.py`, `src/main.py`, `src/trader.py` and
`src/position_tracker.py` that the stated properties are about, and proves
or refutes each property against that embedding.

Conventions:
* Python floats are modelled as rationals (`ℚ`); `round(x, 2)` is modelled by
  `round2` (round to nearest hundredth) and `math.ceil(x * 100) / 100` by `ceil2`.
* Mutable shared state read concurrently (the blocked-market registry, the
  market-closing callback) is modelled as an environment function of the
  observation point (attempt index), so a value that a concurrent thread
  changes between attempts is a function that may differ between indices.
* Fallible venue calls are modelled by an `ApiOutcome` environment value per
  attempt; exceptions that the source catches per attempt are the `exn` and
  `rejected` outcomes (the `rejected` branch of the source raises a `NameError`
  that the per-attempt handler catches, see the `execPrints` model below).
-/

namespace FourCoins

/-- Python `round(x, 2)`: round `x` to the nearest hundredth
(`round` rounds halves up here where Python's float round is banker's;
every concrete input used below is a non-tie value, where the two agree). -/
def round2 (x : ℚ) : ℚ := (round (x * 100) : ℤ) / 100

/-- Python `math.ceil(x * 100) / 100`: round `x` up to the venue's
two-decimal price granularity. -/
def ceil2 (x : ℚ) : ℚ := ((⌈x * 100⌉ : ℤ) : ℚ) / 100

theorem round2_le (x : ℚ) : round2 x ≤ x + 1 / 200 := by
  have h := abs_sub_round (x * 100)
  rw [abs_sub_le_iff] at h
  have h2 : (round (x * 100) : ℚ) ≤ x * 100 + 1 / 2 := by linarith [h.2]
  unfold round2
  rw [div_le_iff₀ (by norm_num : (0:ℚ) < 100)]
  linarith

/-- `OrderResult` dataclass of `order_executor.py`. -/
structure OrderResult where
  success : Bool
  order_id : Option String := none
  filled_size : ℚ := 0
  filled_price : ℚ := 0
  total_spent_usd : ℚ := 0
  attempts : ℕ := 1
  error : Option String := none
  dry_run : Bool := false
  remaining_balance : ℚ := 0
deriving Repr, DecidableEq

/-- The denial reason strings returned by `SafetyGuard.check_order_allowed`. -/
inductive AllowReason where
  | emergencyStop
  | dryRunMode
  | orderTooLarge
  | rateLimit
  | investmentLimit
  | ok
deriving Repr, DecidableEq

def AllowReason.str : AllowReason → String
  | .emergencyStop => "EMERGENCY_STOP_ACTIVE"
  | .dryRunMode => "DRY_RUN_MODE"
  | .orderTooLarge => "ORDER_TOO_LARGE"
  | .rateLimit => "RATE_LIMIT"
  | .investmentLimit => "INVESTMENT_LIMIT"
  | .ok => "OK"

/-- `SafetyGuard` state as visible to one `check_order_allowed` call
(`safety_guard.py`): the latches and limits, the number of orders recorded in
the trailing 60 s window, and the amount already invested in this market. -/
structure SafetyGuard where
  emergency_stop : Bool
  dry_run : Bool
  max_order_size_usd : ℚ
  max_orders_per_minute : ℕ
  recent_orders : ℕ
  invested_this_market : ℚ
  max_total_investment : ℚ
deriving Repr, DecidableEq

/-- `SafetyGuard.check_order_allowed` (`safety_guard.py`). -/
def check_order_allowed (g : SafetyGuard) (contracts price : ℚ) :
    Bool × AllowReason :=
  if g.emergency_stop then (false, .emergencyStop)
  else if g.dry_run then (false, .dryRunMode)
  else if g.max_order_size_usd < contracts * price then (false, .orderTooLarge)
  else if g.max_orders_per_minute ≤ g.recent_orders then (false, .rateLimit)
  else if g.max_total_investment < g.invested_this_market + contracts * price then
    (false, .investmentLimit)
  else (true, .ok)

/-- Outcome of one `post_order(..., OrderType.FAK)` round trip at a given
attempt, as a function of the order size actually posted:
`ok taking making` is a success response with its reported `takingAmount`
(contracts received) and `makingAmount` (dollars spent); `rejected msg` is a
`success: false` response carrying `errorMsg`; `exn` is an exception raised by
`create_order`/`post_order` itself. -/
inductive ApiOutcome where
  | ok (taking making : ℚ)
  | rejected (msg : String)
  | exn
deriving Repr, DecidableEq

/-- Environment of one `place_buy_order` call: what the shared blocked-market
registry, the market-closing callback and the venue answer at each observation
point.  Index `0` is the pair of checks made before the FAK loop; index
`k ≥ 1` is the pair of checks made at the top of loop attempt `k`. -/
structure BuyEnv where
  blocked : ℕ → Bool
  closing : ℕ → Bool
  api : ℕ → ℚ → ApiOutcome

/-- `execution.buy` configuration of `place_buy_order`, with the source's
config defaults. -/
structure BuyCfg where
  maxFakAttempts : ℕ := 3
  minOrderUsd : ℚ := 1
  targetFillPercent : ℚ := 95 / 100
deriving Repr, DecidableEq

/-- Running state of the FAK loop of `place_buy_order`:
`total_filled_contracts`, `total_spent_usd`, the `fak_attempt` loop variable,
the list of attempt indices at which a venue order was actually posted, and
the list of `takingAmount` values of the successful posts, in order. -/
structure LoopState where
  filled : ℚ := 0
  spent : ℚ := 0
  lastAttempt : ℕ := 1
  calls : List ℕ := []
  fills : List ℚ := []
deriving Repr, DecidableEq

/-- One-based FAK loop of `place_buy_order` (`order_executor.py`).
`coinSome` is `bool(coin)` after coin derivation, `hasCb` is whether the
market-closing callback is installed; the two in-loop race-protection checks
are guarded exactly as in the source.  Checks, the remaining/target test, the
minimum-order-value test, the venue call and the accumulation mirror the
source statement for statement; the per-attempt exception handler makes both
`rejected` and `exn` outcomes fall through to the next attempt. -/
def fakGo (cfg : BuyCfg) (env : BuyEnv) (coinSome hasCb : Bool)
    (target normPrice : ℚ) : ℕ → ℕ → LoopState → LoopState
  | _, 0, s => s
  | k, fuel + 1, s =>
    let s := { s with lastAttempt := k }
    if coinSome && env.blocked k then s
    else if coinSome && hasCb && env.closing k then s
    else
      let remaining := target - s.filled
      if remaining ≤ 1 / 100 ∨ target * cfg.targetFillPercent ≤ s.filled then s
      else if round2 (remaining * normPrice) < cfg.minOrderUsd then s
      else
        let sz := round2 remaining
        match env.api k sz with
        | .ok taking making =>
            fakGo cfg env coinSome hasCb target normPrice (k + 1) fuel
              { s with filled := s.filled + taking, spent := s.spent + making,
                       calls := s.calls ++ [k], fills := s.fills ++ [taking] }
        | .rejected _ =>
            fakGo cfg env coinSome hasCb target normPrice (k + 1) fuel
              { s with calls := s.calls ++ [k] }
        | .exn =>
            fakGo cfg env coinSome hasCb target normPrice (k + 1) fuel
              { s with calls := s.calls ++ [k] }

/-- The full FAK loop of one `place_buy_order` call: attempts `1` to
`maxFakAttempts` from the empty accumulator. -/
def buyLoopRun (cfg : BuyCfg) (env : BuyEnv) (coinSome hasCb : Bool)
    (target normPrice : ℚ) : LoopState :=
  fakGo cfg env coinSome hasCb target normPrice 1 cfg.maxFakAttempts {}

/-- `OrderExecutor.place_buy_order` (`order_executor.py`): safety check (with
the dry-run simulated fill), pre-loop atomic blocked-registry check, pre-loop
market-closing callback check, the FAK loop, and the final result assembly
from the accumulated totals. -/
def place_buy_order (g : SafetyGuard) (cfg : BuyCfg) (hasCb : Bool)
    (coin : Option String) (env : BuyEnv) (contracts : ℕ) (ask_price : ℚ) :
    OrderResult :=
  let allowed := check_order_allowed g contracts ask_price
  if !allowed.1 then
    if allowed.2 = .dryRunMode then
      { success := true, order_id := some "DRY_RUN",
        filled_size := contracts, filled_price := ask_price,
        total_spent_usd := round2 (contracts * ask_price),
        attempts := 1, dry_run := true }
    else
      { success := false, error := some allowed.2.str }
  else
    let target : ℚ := contracts
    let normPrice := ceil2 (ask_price * (1 + 5 / 100))
    if coin.isSome && env.blocked 0 then
      { success := false, error := some "MARKET_BLOCKED_FOR_COIN",
        remaining_balance := 0 }
    else if coin.isSome && hasCb && env.closing 0 then
      { success := false, error := some "MARKET_CLOSING_RACE_CONDITION_BLOCKED",
        remaining_balance := 0 }
    else
      let s := buyLoopRun cfg env coin.isSome hasCb target normPrice
      if 0 < s.filled then
        { success := true, filled_size := s.filled,
          filled_price := if 0 < s.filled then s.spent / s.filled else normPrice,
          total_spent_usd := s.spent, attempts := s.lastAttempt }
      else
        { success := false,
          error := some ("NO_FILL_AFTER_" ++ toString cfg.maxFakAttempts ++ "_FAK"),
          attempts := s.lastAttempt }

/-! ### `main.py`: price validation, per-asset market status, exit triggers -/

/-- The reason component returned by `validate_prices`. -/
inductive PriceCheck where
  | ok
  | upStale
  | downStale
  | desync
  | invalidSum
deriving Repr, DecidableEq

/-- `validate_prices` (`main.py`): freshness of each side's last-update
timestamp (a timestamp `≤ 0` counts as age `999`), synchrony of the two
timestamps, and the plausibility band `[0.95, 1.15]` on the ask sum.
`thr` is `threshold_sec` (default `2.0` at the call sites). -/
def validate_prices (up_ask down_ask up_ts down_ts now thr : ℚ) :
    Bool × PriceCheck :=
  let up_age := if 0 < up_ts then now - up_ts else 999
  let down_age := if 0 < down_ts then now - down_ts else 999
  if thr < up_age then (false, .upStale)
  else if thr < down_age then (false, .downStale)
  else if thr < |up_ts - down_ts| then (false, .desync)
  else if up_ask + down_ask < 95 / 100 ∨ 115 / 100 < up_ask + down_ask then
    (false, .invalidSum)
  else (true, .ok)

/-- Joint per-(coin, slug) shared state: the `market_start_prices[coin]` entry
for the slug (`none` when untracked; `-1` skip, `0` pending, `p > 0` active
with start price `p`, `-2` closing) and the per-coin blocked-market registry
membership of the slug (`_blocked_markets[coin]`). -/
structure SlugState where
  status : Option ℚ
  blocked : Bool
deriving Repr, DecidableEq

/-- `is_market_closing` callback installed by `main.py`: the status flag of
the slug for this coin equals `-2`. -/
def is_market_closing (st : SlugState) : Bool := st.status = some (-2)

/-- The steps of the system that touch a given slug's per-coin status flag or
registry entry.  `observe cur p t w` is one pass of the main loop for this
coin with current feed slug `cur`, feed price `p`, `seconds_till_end` `t` and
`witnessed_market_switch` `w` (STEP 1 market-switch deletion, STEP 2 start
price tracking, and the skip-activation of the entry window); the main loop
`continue`s on an empty feed slug, so `cur` is always a nonempty slug here.
`trigger u` is a confirmed stop-loss/flip-stop for slug `u` from either the
price-update path or the fast-timer path (both set `-2` under the same
guards and block the registry); `unblock u` is the redeem-path
`unblock_market` call. -/
inductive MEvent where
  | observe (cur : String) (p t : ℚ) (w : Bool)
  | trigger (u : String)
  | unblock (u : String)
deriving Repr, DecidableEq

/-- Transition of the per-(coin, slug) state for the fixed slug `s` under one
system step, statement for statement from `main.py`:
* `observe` with the feed on another slug deletes `s` from tracking;
* `observe` with the feed on `s` first-observes it as skip (`-1`) or as
  pending/active, updates a pending `0` entry once a positive price arrives,
  and re-arms a skip entry to pending once `seconds_till_end ≤ 240`;
* `trigger` requires the status to be tracked and not `-1`/`-2` (both exit
  paths bail out on `status in [-1, -2, -999]` and re-check `== -2`), then
  writes `-2` and adds the slug to the blocked registry;
* `unblock` removes the slug from the blocked registry and leaves the status
  untouched. -/
def stepSlug (s : String) (st : SlugState) : MEvent → SlugState
  | .observe cur p t w =>
    if cur ≠ s then
      { st with status := none }
    else
      let st1 : Option ℚ :=
        match st.status with
        | none => some (if !w then -1 else if 0 < p then p else 0)
        | some v => if v = 0 ∧ 0 < p then some p else some v
      let st2 : Option ℚ :=
        match st1 with
        | none => none
        | some v => if v = -1 ∧ t ≤ 240 then some 0 else some v
      { st with status := st2 }
  | .trigger u =>
    if u = s then
      match st.status with
      | some v =>
          if v ≠ -1 ∧ v ≠ -2 then { status := some (-2), blocked := true }
          else st
      | none => st
    else st
  | .unblock u => if u = s then { st with blocked := false } else st

/-- Run a trace of system steps from a state. -/
def runSlug (s : String) (st : SlugState) (evts : List MEvent) : SlugState :=
  evts.foldl (stepSlug s) st

/-- Position stats consumed by the exit checks (`get_market_stats`). -/
structure PositionStats where
  total_invested : ℚ
  up_shares : ℚ
  down_shares : ℚ
  unrealized_pnl : ℚ
deriving Repr, DecidableEq

/-- Per-coin stop-loss configuration (`exit.stop_loss.per_coin`). -/
inductive SLType where
  | fixed
  | percent
  | noneType
deriving Repr, DecidableEq

structure SLConfig where
  enabled : Bool
  sltype : SLType
  value : Option ℚ
deriving Repr, DecidableEq

/-- One tick of price data as read by `on_price_update`. -/
structure TickData where
  up_ask : ℚ
  down_ask : ℚ
  up_ts : ℚ
  down_ts : ℚ
  now : ℚ
deriving Repr, DecidableEq

/-- The externally visible action of an exit trigger: the
`close_market_early_exit` call it issues. -/
inductive ExitAction where
  | closeEarlyExit (reason : String) (exit_price : ℚ)
deriving Repr, DecidableEq

/-- PART 1 (exit checks) of `on_price_update` in `main.py` for one strategy:
ask sanity filter, status filter, position filter, `validate_prices`
validation, our-side determination, hybrid stop-loss, flip-stop; a confirmed
trigger writes `-2`, blocks the registry and issues the early-exit close.
Returns the new shared state for the slug and the list of issued actions. -/
def exitCheckTick (d : TickData) (sl : SLConfig) (flipStopPrice : ℚ)
    (stats : Option PositionStats) (st : SlugState) :
    SlugState × List ExitAction :=
  if d.up_ask ≤ 0 ∨ d.down_ask ≤ 0 ∨ 1 < d.up_ask ∨ 1 < d.down_ask then (st, [])
  else
    match st.status with
    | none => (st, [])
    | some v =>
      if v = -1 ∨ v = -2 then (st, [])
      else
        match stats with
        | none => (st, [])
        | some ps =>
          if ps.total_invested ≤ 0 then (st, [])
          else if !(validate_prices d.up_ask d.down_ask d.up_ts d.down_ts
              d.now 2).1 then (st, [])
          else
            let ourUp := ps.down_shares < ps.up_shares ∧ 0 < ps.up_shares
            let ourDown := ¬ourUp ∧ 0 < ps.down_shares
            if ¬(ourUp ∨ ourDown) then (st, [])
            else
              let our_price := if ourUp then d.up_ask else d.down_ask
              if our_price = 0 then (st, [])
              else
                let slTriggered : Bool :=
                  match sl.enabled, sl.value, sl.sltype with
                  | true, some val, .fixed => decide (ps.unrealized_pnl ≤ val)
                  | true, some val, .percent =>
                      decide (ps.unrealized_pnl ≤ ps.total_invested * (val / 100))
                  | _, _, _ => false
                if slTriggered then
                  ({ status := some (-2), blocked := true },
                   [.closeEarlyExit "stop_loss" our_price])
                else if our_price ≤ flipStopPrice then
                  ({ status := some (-2), blocked := true },
                   [.closeEarlyExit "flip_stop" our_price])
                else (st, [])

/-! ### `trader.py`: the position ledger -/

/-- One recorded entry of a position (`trader.py` entry dict). -/
structure Entry where
  side : String
  price : ℚ
  size_usd : ℚ
  shares : ℚ
deriving Repr, DecidableEq

/-- Per-side accumulation inside a position. -/
structure SideState where
  entries : List Entry := []
  total_invested : ℚ := 0
  total_shares : ℚ := 0
deriving Repr, DecidableEq

/-- One open position of the ledger (`self.positions[market_slug]`). -/
structure TraderPos where
  up : SideState := {}
  down : SideState := {}
  all_entries : List Entry := []
deriving Repr, DecidableEq

/-- A persisted trade record, restricted to the fields the properties are
about (`trade` dict of `close_market` / `close_market_early_exit`). -/
structure Trade where
  market_slug : String
  winner : String
  pnl : ℚ
  roi_pct : ℚ
  total_cost : ℚ
  payout : ℚ
  updated : Bool := false
  estimated_pnl : Option ℚ := none
  estimated_payout : Option ℚ := none
deriving Repr, DecidableEq

/-- Ledger state of one `Trader` (`trader.py`): the open positions, the
capital, the in-memory closed trades, the closed-market set, the append-only
on-disk trade log (`_log_trade` target), and the `_entry_count` counter. -/
structure TraderState where
  positions : String → Option TraderPos
  current_capital : ℚ
  closed_trades : List Trade := []
  closed_markets : List String := []
  tradeLog : List Trade := []
  entry_count : ℕ := 0

/-- `Trader.enter_position_contracts` (`trader.py`).  `buy` is the result of
the `place_buy_order` call when the execution engine is wired and the token
id and ask price are available (`none` when no real buy is attempted).
Returns the success flag and the new ledger state. -/
def enter_position_contracts (st : TraderState) (slug side : String)
    (price : ℚ) (contracts : ℤ) (buy : Option OrderResult) :
    Bool × TraderState :=
  if contracts = 0 then (true, st)
  else
    let shares : ℚ := (contracts : ℚ)
    let size_usd := shares * price
    let st := { st with entry_count := st.entry_count + 1 }
    let record : ℚ → ℚ → Bool × TraderState := fun actual_contracts actual_cost =>
      let pos := (st.positions slug).getD {}
      let entry : Entry :=
        { side := side, price := price,
          size_usd := actual_cost, shares := actual_contracts }
      let addSide : SideState → SideState := fun ss =>
        { ss with entries := ss.entries ++ [entry],
                  total_invested := ss.total_invested + actual_cost,
                  total_shares := ss.total_shares + actual_contracts }
      let pos' :=
        { pos with all_entries := pos.all_entries ++ [entry],
                   up := if side = "UP" then addSide pos.up else pos.up,
                   down := if side = "DOWN" then addSide pos.down else pos.down }
      (true, { st with positions := Function.update st.positions slug (some pos') })
    match buy with
    | some r =>
        if r.success then record r.filled_size r.total_spent_usd
        else if !r.dry_run then (false, st)
        else record shares size_usd
    | none => record shares size_usd

/-- `Trader.close_market` (`trader.py`): natural settlement.  `persistOk`
models whether the `_log_trade` disk append succeeds; on failure the
exception is caught, the close returns `None` and the position is kept. -/
def close_market (st : TraderState) (slug winner : String) (persistOk : Bool) :
    Option Trade × TraderState :=
  match st.positions slug with
  | none => (none, st)
  | some pos =>
    let winS := if winner = "UP" then pos.up else pos.down
    let payout := winS.total_shares * 1
    let total_cost := pos.up.total_invested + pos.down.total_invested
    let pnl := payout - total_cost
    let roi_pct := if 0 < total_cost then pnl / total_cost * 100 else 0
    let st1 := { st with current_capital := st.current_capital + pnl }
    let trade : Trade :=
      { market_slug := slug, winner := winner, pnl := pnl,
        roi_pct := roi_pct, total_cost := total_cost, payout := payout }
    if persistOk then
      (some trade,
       { st1 with tradeLog := st1.tradeLog ++ [trade],
                  closed_trades := st1.closed_trades ++ [trade],
                  closed_markets := st1.closed_markets ++ [slug],
                  positions := Function.update st1.positions slug none })
    else (none, st1)

/-- Environment of one `close_market_early_exit` call: whether an execution
engine plus cached token ids are wired, the `sell_position` results for the
two sides, and the outcomes of the two `_log_trade` disk appends (the first
for the estimated record, the second for the corrective record; the second
append sits outside any handler, so its failure propagates as an uncaught
exception). -/
structure EarlyExitEnv where
  wired : Bool
  sellUp : OrderResult
  sellDown : OrderResult
  persist1 : Bool
  persist2 : Bool
deriving Repr, DecidableEq

/-- Outcome of `close_market_early_exit`: a normal return of the trade dict
(or `None`), or an uncaught exception escaping the call. -/
inductive CloseOutcome where
  | ret (t : Option Trade)
  | raised
deriving Repr, DecidableEq

/-- The estimated payout of `close_market_early_exit`: the favorite side
(more contracts) sells at `exit_price`, the other side at `1 - exit_price`. -/
def earlyExitEstimatedPayout (pos : TraderPos) (exit_price : ℚ) : ℚ :=
  if pos.down.total_shares < pos.up.total_shares then
    pos.up.total_shares * exit_price + pos.down.total_shares * (1 - exit_price)
  else
    pos.down.total_shares * exit_price + pos.up.total_shares * (1 - exit_price)

/-- The accumulated `real_payout` of the sell phase of
`close_market_early_exit`: each side with a positive tracked contract count
is sold, and a successful sell contributes its `total_spent_usd`. -/
def earlyExitRealPayout (pos : TraderPos) (env : EarlyExitEnv) : ℚ :=
  (if 0 < pos.up.total_shares then
     (if env.sellUp.success then env.sellUp.total_spent_usd else 0)
   else 0) +
  (if 0 < pos.down.total_shares then
     (if env.sellDown.success then env.sellDown.total_spent_usd else 0)
   else 0)

/-- The `real_sells_executed` flag of `close_market_early_exit`: some sell of
a held side reported success. -/
def earlyExitSellExecuted (pos : TraderPos) (env : EarlyExitEnv) : Bool :=
  (decide (0 < pos.up.total_shares) && env.sellUp.success) ||
  (decide (0 < pos.down.total_shares) && env.sellDown.success)

/-- The estimated trade record persisted by `close_market_early_exit` before
the real sells run. -/
def earlyExitTradeRecord (slug : String) (pos : TraderPos) (exit_price : ℚ) :
    Trade :=
  let payout := earlyExitEstimatedPayout pos exit_price
  let total_cost := pos.up.total_invested + pos.down.total_invested
  let pnl := payout - total_cost
  { market_slug := slug,
    winner := if pos.down.total_shares < pos.up.total_shares then "UP" else "DOWN",
    pnl := pnl,
    roi_pct := if 0 < total_cost then pnl / total_cost * 100 else 0,
    total_cost := total_cost, payout := payout }

/-- `Trader.close_market_early_exit` (`trader.py`): estimate the payout from
the exit price, apply the estimated PnL to capital, persist the estimated
record (before deleting the position), then — when wired — sell both held
sides for real, and on a positive real payout rewrite the trade record and
the last `closed_trades` element with the real PnL, persist the corrective
record and apply the single capital correction `real_pnl - pnl`.  The
slippage-analysis block of the source mutates no ledger state (it aborts on
an internal `NameError` that its own handler catches) and is omitted. -/
def close_market_early_exit (st : TraderState) (slug : String)
    (exit_price : ℚ) (env : EarlyExitEnv) : CloseOutcome × TraderState :=
  match st.positions slug with
  | none => (.ret none, st)
  | some pos =>
    if slug ∈ st.closed_markets then (.ret none, st)
    else
      let payout := earlyExitEstimatedPayout pos exit_price
      let total_cost := pos.up.total_invested + pos.down.total_invested
      let pnl := payout - total_cost
      let st1 := { st with current_capital := st.current_capital + pnl }
      let trade := earlyExitTradeRecord slug pos exit_price
      if !env.persist1 then (.ret none, st1)
      else
        let st2 :=
          { st1 with tradeLog := st1.tradeLog ++ [trade],
                     closed_trades := st1.closed_trades ++ [trade],
                     closed_markets := st1.closed_markets ++ [slug],
                     positions := Function.update st1.positions slug none }
        if !env.wired then (.ret (some trade), st2)
        else
          let real_payout := earlyExitRealPayout pos env
          let real_sells_executed := earlyExitSellExecuted pos env
          if real_sells_executed && decide (0 < real_payout) then
            let real_pnl := real_payout - total_cost
            let real_roi := if 0 < total_cost then real_pnl / total_cost * 100 else 0
            let trade' :=
              { trade with payout := real_payout, pnl := real_pnl,
                           roi_pct := real_roi }
            let st3 :=
              { st2 with closed_trades :=
                  if st2.closed_trades ≠ [] ∧
                     (st2.closed_trades.getLast?.map Trade.market_slug) = some slug
                  then st2.closed_trades.dropLast ++ [trade']
                  else st2.closed_trades }
            let updated_trade :=
              { trade' with updated := true, estimated_pnl := some pnl,
                            estimated_payout := some payout }
            if !env.persist2 then (.raised, st3)
            else
              let st4 :=
                { st3 with tradeLog := st3.tradeLog ++ [updated_trade],
                           current_capital := st3.current_capital - pnl + real_pnl }
              (.ret (some trade'), st4)
          else (.ret (some trade), st2)

/-! ### `position_tracker.py`: `get_position` -/

/-- Per-side tracked position of `PositionTracker`
(`self.positions[market_slug][side]`). -/
structure TrackSide where
  contracts : ℚ
  invested : ℚ
  trades : List String
deriving Repr, DecidableEq

/-- The stats dict returned by `PositionTracker.get_position`. -/
structure PosStats where
  contracts : ℚ
  invested : ℚ
  avg_price : ℚ
  trades_count : ℕ
deriving Repr, DecidableEq

/-- `PositionTracker.get_position` (`position_tracker.py`): an untracked
market yields all-zero stats; a tracked market reads the side with a
zero default, and guards the average-price division on `contracts > 0`. -/
def get_position (positions : String → Option (String → Option TrackSide))
    (slug side : String) : PosStats :=
  match positions slug with
  | none => { contracts := 0, invested := 0, avg_price := 0, trades_count := 0 }
  | some sides =>
    let pos := (sides side).getD { contracts := 0, invested := 0, trades := [] }
    { contracts := pos.contracts, invested := pos.invested,
      avg_price := if 0 < pos.contracts then pos.invested / pos.contracts else 0,
      trades_count := pos.trades.length }

/-! ### `order_executor.py`: STEP 2 chunk partition of `sell_position` -/

/-- STEP 2 of `OrderExecutor.sell_position` (`order_executor.py`): the
`while remaining > MIN_DUST_THRESHOLD` loop that splits the initial
blockchain balance into chunks of at most `chunkSize`
(config defaults: chunk size 40, dust threshold 1/10). -/
def sell_chunks (chunkSize dust : ℚ) (hcs : 0 < chunkSize) (hd : 0 ≤ dust)
    (remaining : ℚ) : List ℚ :=
  if h : dust < remaining then
    min chunkSize remaining ::
      sell_chunks chunkSize dust hcs hd (remaining - min chunkSize remaining)
  else []
termination_by (⌈remaining / chunkSize⌉).toNat
decreasing_by
  have hr : 0 < remaining := lt_of_le_of_lt hd h
  rcases le_or_lt remaining chunkSize with hle | hgt
  · have hmin : min chunkSize remaining = remaining := min_eq_right hle
    rw [hmin, sub_self, zero_div]
    have h1 : (0 : ℚ) < remaining / chunkSize := div_pos hr hcs
    have h2 : (1 : ℤ) ≤ ⌈remaining / chunkSize⌉ := Int.ceil_pos.mpr h1
    simp only [Int.ceil_zero, Int.toNat_zero]
    omega
  · have hmin : min chunkSize remaining = chunkSize := min_eq_left hgt.le
    rw [hmin]
    have hne : chunkSize ≠ 0 := ne_of_gt hcs
    have heq : (remaining - chunkSize) / chunkSize = remaining / chunkSize - 1 := by
      field_simp
    rw [heq, Int.ceil_sub_one]
    have h1 : (0 : ℚ) < remaining / chunkSize := div_pos hr hcs
    have h2 : (1 : ℤ) ≤ ⌈remaining / chunkSize⌉ := Int.ceil_pos.mpr h1
    omega

/-! ### The `success: false` logging branch of `place_buy_order`

The three `print` statements of the branch (`order_executor.py`), modelled at
the granularity of the names each f-string evaluates: a statement executes
only if every name it references is bound in the enclosing scope; the first
unbound reference raises a `NameError` before that statement prints. -/

/-- One `print(f"...")` statement: the names its f-string evaluates, and the
rendered text it emits when all of them resolve. -/
structure PrintStmt where
  refs : List String
  text : String
deriving Repr, DecidableEq

/-- Execute a sequence of prints in a scope: the emitted lines in order, and
the unbound name of the first `NameError`, if any. -/
def execPrints (scope : List String) : List PrintStmt → List String × Option String
  | [] => ([], none)
  | stmt :: rest =>
    match stmt.refs.find? (fun v => !scope.contains v) with
    | some v => ([], some v)
    | none =>
      let r := execPrints scope rest
      (stmt.text :: r.1, r.2)

/-- The names bound in the scope of `place_buy_order` at the point of its
`success: false` branch: the function's parameters, the locals assigned
before the branch, and the module-level imports the branch uses.  The module
defines no global `sell_price`, and `place_buy_order` never assigns one. -/
def buyScope : List String :=
  ["self", "market_slug", "token_id", "side", "contracts", "ask_price", "coin",
   "exec_config", "MAX_FAK_ATTEMPTS", "RETRY_DELAY", "MIN_ORDER_USD",
   "TARGET_FILL_PERCENT", "allowed", "reason", "target_contracts",
   "SLIPPAGE_BUY", "aggressive_price", "normalized_price",
   "total_filled_contracts", "total_spent_usd", "start_time_total",
   "fak_attempt", "remaining_contracts", "remaining_usd", "order_size_usd",
   "start_time", "order_args", "signed_order", "api_result", "elapsed_ms",
   "error_msg", "json", "time", "math", "os", "requests", "OrderArgs",
   "OrderType", "OrderResult", "BUY", "SELL"]

/-- The `else` branch run when `api_result.get("success")` is falsy
(`order_executor.py`): log the failure, dump the full API response, then
print the sent order args — the third print references `sell_price`. -/
def buyRejectBranch (fak_attempt : ℕ) (error_msg : String) : List PrintStmt :=
  [ { refs := ["fak_attempt", "error_msg"],
      text := "[EXECUTOR] [FAK " ++ toString fak_attempt ++ "] FAILED: " ++
        error_msg },
    { refs := ["json", "api_result"],
      text := "[EXECUTOR] Full API response: " ++ error_msg },
    { refs := ["sell_price", "remaining_contracts", "token_id"],
      text := "[EXECUTOR] Sent OrderArgs" } ]

/-! ### Theorems -/

/-- C10: `PositionTracker.get_position` is total at the public interface: an
untracked market yields all-zero stats, the average price is
`invested / contracts` exactly when `contracts > 0` (so
`avg_price * contracts = invested` there) and `0.0` otherwise — the division
is always guarded. -/
theorem get_position_total_and_guarded
    (positions : String → Option (String → Option TrackSide))
    (slug side : String) :
    (positions slug = none →
      get_position positions slug side =
        { contracts := 0, invested := 0, avg_price := 0, trades_count := 0 }) ∧
    ((get_position positions slug side).contracts ≤ 0 →
      (get_position positions slug side).avg_price = 0) ∧
    (0 < (get_position positions slug side).contracts →
      (get_position positions slug side).avg_price *
          (get_position positions slug side).contracts =
        (get_position positions slug side).invested) := by
  cases h : positions slug with
  | none =>
    refine ⟨fun _ => ?_, fun _ => ?_, fun hpos => ?_⟩ <;>
      simp_all [get_position]
  | some sides =>
    refine ⟨fun hnone => ?_, fun hle => ?_, fun hpos => ?_⟩
    · simp [h] at hnone
    · simp only [get_position, h] at hle ⊢
      rw [if_neg (by exact not_lt.mpr hle)]
    · simp only [get_position, h] at hpos ⊢
      rw [if_pos hpos, div_mul_cancel₀ _ (ne_of_gt hpos)]

/-- Witness for `get_position_total_and_guarded` at a concrete tracked
position with two contracts. -/
theorem get_position_total_and_guarded_witness :
    (get_position
        (fun s => if s = "m" then
          some (fun sd => if sd = "UP" then
            some { contracts := 2, invested := 1, trades := ["t"] } else none)
          else none) "m" "UP").avg_price *
      (get_position
        (fun s => if s = "m" then
          some (fun sd => if sd = "UP" then
            some { contracts := 2, invested := 1, trades := ["t"] } else none)
          else none) "m" "UP").contracts =
    (get_position
        (fun s => if s = "m" then
          some (fun sd => if sd = "UP" then
            some { contracts := 2, invested := 1, trades := ["t"] } else none)
          else none) "m" "UP").invested :=
  (get_position_total_and_guarded _ "m" "UP").2.2 (by decide)

/-- The chunk-partition invariants, proved for any nonnegative starting
remainder by induction along the `while` loop of `sell_position` STEP 2. -/
theorem sell_chunks_spec (chunkSize dust : ℚ) (hcs : 0 < chunkSize)
    (hd : 0 ≤ dust) (r : ℚ) (hr : 0 ≤ r) :
    (∀ c ∈ sell_chunks chunkSize dust hcs hd r, 0 < c ∧ c ≤ chunkSize) ∧
    (sell_chunks chunkSize dust hcs hd r).sum ≤ r ∧
    r - (sell_chunks chunkSize dust hcs hd r).sum ≤ dust := by
  induction r using sell_chunks.induct chunkSize dust hcs hd with
  | case1 r hlt ih =>
    rw [sell_chunks, dif_pos hlt]
    have hrpos : 0 < r := lt_of_le_of_lt hd hlt
    have hchunk : 0 < min chunkSize r := lt_min hcs hrpos
    have hrest : (0 : ℚ) ≤ r - min chunkSize r :=
      sub_nonneg.mpr (min_le_right _ _)
    obtain ⟨ih1, ih2, ih3⟩ := ih hrest
    refine ⟨?_, ?_, ?_⟩
    · intro c hc
      rcases List.mem_cons.mp hc with rfl | hc
      · exact ⟨hchunk, min_le_left _ _⟩
      · exact ih1 c hc
    · simpa [List.sum_cons] using by linarith
    · simp only [List.sum_cons]
      linarith
  | case2 r hlt =>
    rw [sell_chunks, dif_neg hlt]
    refine ⟨by simp, by simpa using hr, ?_⟩
    simp only [List.sum_nil, sub_zero]
    exact le_of_not_lt hlt

/-- C8: for an initial on-chain balance above the dust threshold, the chunk
partition computed by `sell_position` consists of positive chunks of at most
the configured chunk size, the chunks sum to at most the balance, and the
unassigned remainder is at most the dust threshold. -/
theorem sell_position_chunk_partition (chunkSize dust B : ℚ)
    (hcs : 0 < chunkSize) (hd : 0 ≤ dust) (hB : dust < B) :
    (∀ c ∈ sell_chunks chunkSize dust hcs hd B, 0 < c ∧ c ≤ chunkSize) ∧
    (sell_chunks chunkSize dust hcs hd B).sum ≤ B ∧
    B - (sell_chunks chunkSize dust hcs hd B).sum ≤ dust :=
  sell_chunks_spec chunkSize dust hcs hd B (le_of_lt (lt_of_le_of_lt hd hB))

/-- Witness for `sell_position_chunk_partition` at the config defaults
(chunk size 40, dust 1/10) and balance 90: remainder of the partition stays
within the dust threshold. -/
theorem sell_position_chunk_partition_witness :
    90 - (sell_chunks 40 (1 / 10) (by norm_num) (by norm_num) 90).sum ≤ 1 / 10 :=
  (sell_position_chunk_partition 40 (1 / 10) 90 (by norm_num) (by norm_num)
    (by norm_num)).2.2

/-- C4: if a wired real buy reports failure (not dry-run), the ledger entry
operation returns `False` and the positions map is untouched — no phantom
position is created. -/
theorem enter_position_contracts_no_phantom (st : TraderState)
    (slug side : String) (price : ℚ) (contracts : ℤ) (r : OrderResult)
    (hc : contracts ≠ 0) (hs : r.success = false) (hdr : r.dry_run = false) :
    (enter_position_contracts st slug side price contracts (some r)).1 = false ∧
    (enter_position_contracts st slug side price contracts (some r)).2.positions
      = st.positions := by
  unfold enter_position_contracts
  rw [if_neg hc]
  simp [hs, hdr]

/-- Witness for `enter_position_contracts_no_phantom` on an empty ledger and
a failed one-contract buy. -/
theorem enter_position_contracts_no_phantom_witness :
    (enter_position_contracts
      { positions := fun _ => none, current_capital := 100 } "m" "UP" (1 / 2) 1
      (some { success := false, error := some "NO_FILL_AFTER_3_FAK" })).1
      = false :=
  (enter_position_contracts_no_phantom
    { positions := fun _ => none, current_capital := 100 } "m" "UP" (1 / 2) 1
    { success := false, error := some "NO_FILL_AFTER_3_FAK" }
    (by decide) rfl rfl).1

/-- C6: for both close operations on an open position, the trade record is
persisted strictly before the in-memory position is deleted: a persistence
failure makes the close return `None` with the position (and the log)
untouched, and whenever the close returns a trade (so the position was
deleted) a record for the market is in the append-only log. -/
theorem close_persisted_before_delete (st : TraderState)
    (slug winner : String) (exit_price : ℚ) (env : EarlyExitEnv)
    (pos : TraderPos) (hpos : st.positions slug = some pos) :
    ((close_market st slug winner false).1 = none ∧
      (close_market st slug winner false).2.positions = st.positions ∧
      (close_market st slug winner false).2.tradeLog = st.tradeLog) ∧
    (∀ t, (close_market st slug winner true).1 = some t →
      (close_market st slug winner true).2.positions slug = none ∧
      t ∈ (close_market st slug winner true).2.tradeLog) ∧
    (env.persist1 = false →
      (close_market_early_exit st slug exit_price env).1 = .ret none ∧
      (close_market_early_exit st slug exit_price env).2.positions
        = st.positions ∧
      (close_market_early_exit st slug exit_price env).2.tradeLog
        = st.tradeLog) ∧
    (env.persist1 = true → slug ∉ st.closed_markets →
      (close_market_early_exit st slug exit_price env).2.positions slug
        = none ∧
      earlyExitTradeRecord slug pos exit_price
        ∈ (close_market_early_exit st slug exit_price env).2.tradeLog) := by
  refine ⟨?_, ?_, ?_, ?_⟩
  · unfold close_market
    rw [hpos]
    simp
  · intro t ht
    unfold close_market at ht ⊢
    rw [hpos] at ht ⊢
    simp only [if_pos rfl] at ht ⊢
    refine ⟨by simp, ?_⟩
    obtain rfl : _ = t := Option.some_injective _ ht
    simp
  · intro hp1
    unfold close_market_early_exit
    rw [hpos, hp1]
    by_cases hmem : slug ∈ st.closed_markets <;> simp [hmem]
  · intro hp1 hmem
    simp only [close_market_early_exit, hpos, hp1, if_neg hmem, Bool.not_true,
      Bool.false_eq_true, if_false]
    by_cases hw : env.wired <;>
      by_cases hex : (earlyExitSellExecuted pos env &&
        decide (0 < earlyExitRealPayout pos env)) = true <;>
      by_cases hp2 : env.persist2 <;>
      simp [hw, hex, hp2, Function.update]

/-- Witness for `close_persisted_before_delete`: a one-position ledger whose
persistence fails leaves the close returning `None`. -/
theorem close_persisted_before_delete_witness :
    (close_market
      { positions := fun s => if s = "m" then some {} else none,
        current_capital := 100 } "m" "UP" false).1 = none :=
  (close_persisted_before_delete
    { positions := fun s => if s = "m" then some {} else none,
      current_capital := 100 } "m" "UP" 0
    { wired := false, sellUp := { success := false },
      sellDown := { success := false }, persist1 := false, persist2 := false }
    {} (by simp)).1.1

theorem getLast_append_single {α : Type} (l : List α) (a : α) :
    (l ++ [a]).getLast? = some a := by
  simp

theorem dropLast_append_single {α : Type} (l : List α) (a : α) :
    (l ++ [a]).dropLast = l := by
  simp

@[simp] theorem earlyExitTradeRecord_market_slug (slug : String)
    (pos : TraderPos) (p : ℚ) :
    (earlyExitTradeRecord slug pos p).market_slug = slug := rfl

/-- C3: after an early exit with estimated payout `E` over invested cost `C`,
followed by real sells with positive total proceeds `R`, the trade record the
call returns, the last element of `closed_trades` and the record finally
stored in the append-only log all carry `pnl = R - C` (not `E - C`), and the
ledger's capital receives exactly one correction of `R - E` on top of the
initially applied estimated PnL `E - C`. -/
theorem early_exit_pnl_reconciliation (st : TraderState) (slug : String)
    (exit_price : ℚ) (env : EarlyExitEnv) (pos : TraderPos)
    (hpos : st.positions slug = some pos) (hnc : slug ∉ st.closed_markets)
    (hw : env.wired = true) (hp1 : env.persist1 = true)
    (hp2 : env.persist2 = true)
    (hexec : earlyExitSellExecuted pos env = true)
    (hR : 0 < earlyExitRealPayout pos env) :
    (∃ t, (close_market_early_exit st slug exit_price env).1 = .ret (some t) ∧
      t.pnl = earlyExitRealPayout pos env -
        (pos.up.total_invested + pos.down.total_invested)) ∧
    ((close_market_early_exit st slug exit_price env).2.closed_trades.getLast?.map
        Trade.pnl =
      some (earlyExitRealPayout pos env -
        (pos.up.total_invested + pos.down.total_invested))) ∧
    ((close_market_early_exit st slug exit_price env).2.tradeLog.getLast?.map
        Trade.pnl =
      some (earlyExitRealPayout pos env -
        (pos.up.total_invested + pos.down.total_invested))) ∧
    (close_market_early_exit st slug exit_price env).2.current_capital =
      st.current_capital +
        (earlyExitEstimatedPayout pos exit_price -
          (pos.up.total_invested + pos.down.total_invested)) +
        (earlyExitRealPayout pos env - earlyExitEstimatedPayout pos exit_price) := by
  have hbool : (earlyExitSellExecuted pos env &&
      decide (0 < earlyExitRealPayout pos env)) = true := by
    rw [hexec, decide_eq_true hR]
    rfl
  have hlast : ((st.closed_trades ++ [earlyExitTradeRecord slug pos exit_price]).getLast?.map
      Trade.market_slug) = some slug := by
    rw [getLast_append_single]
    rfl
  have hcond : (st.closed_trades ++ [earlyExitTradeRecord slug pos exit_price]) ≠ [] ∧
      ((st.closed_trades ++ [earlyExitTradeRecord slug pos exit_price]).getLast?.map
        Trade.market_slug) = some slug := by
    refine ⟨by simp, hlast⟩
  simp only [close_market_early_exit, hpos, if_neg hnc, hp1, hw, hp2, hbool,
    Bool.not_true, Bool.false_eq_true, if_false, if_true]
  rw [if_pos hcond, dropLast_append_single]
  refine ⟨⟨_, rfl, rfl⟩, by rw [getLast_append_single]; rfl,
    by rw [getLast_append_single]; rfl, by ring⟩

/-- Witness for `early_exit_pnl_reconciliation`: a position with 10 UP
contracts bought for 6 dollars, estimated exit at 0.5, real sell proceeds
4.6. -/
theorem early_exit_pnl_reconciliation_witness :
    (close_market_early_exit
      { positions := fun s => if s = "m" then
          some { up := { entries := [], total_invested := 6, total_shares := 10 } }
          else none,
        current_capital := 100 } "m" (1 / 2)
      { wired := true,
        sellUp := { success := true, total_spent_usd := 23 / 5 },
        sellDown := { success := false }, persist1 := true,
        persist2 := true }).2.current_capital =
      100 + (5 - 6) + (23 / 5 - 5) := by
  have h := (early_exit_pnl_reconciliation
    { positions := fun s => if s = "m" then
        some { up := { entries := [], total_invested := 6, total_shares := 10 } }
        else none,
      current_capital := 100 } "m" (1 / 2)
    { wired := true,
      sellUp := { success := true, total_spent_usd := 23 / 5 },
      sellDown := { success := false }, persist1 := true, persist2 := true }
    { up := { entries := [], total_invested := 6, total_shares := 10 } }
    (by simp) (by simp) rfl rfl rfl (by decide)
    (by norm_num [earlyExitRealPayout])).2.2.2
  rw [h]
  norm_num [earlyExitEstimatedPayout, earlyExitRealPayout]

/-- C7: exit-trigger evaluation proceeds only when all three validity
conditions hold — each side's timestamp is within the staleness threshold of
now (a nonpositive timestamp counts as stale), the two timestamps agree
within the same threshold, and the ask sum lies in `[0.95, 1.15]` — and
whenever `validate_prices` reports invalid, the whole exit check of the tick
is skipped with no state change and no issued action, regardless of the
position's PnL. -/
theorem validate_prices_gates_exit_checks
    (up_ask down_ask up_ts down_ts now thr : ℚ) (hthr : thr < 999) :
    ((validate_prices up_ask down_ask up_ts down_ts now thr).1 = true ↔
      ((0 < up_ts ∧ now - up_ts ≤ thr) ∧ (0 < down_ts ∧ now - down_ts ≤ thr) ∧
        |up_ts - down_ts| ≤ thr ∧
        95 / 100 ≤ up_ask + down_ask ∧ up_ask + down_ask ≤ 115 / 100)) ∧
    (∀ (d : TickData) (sl : SLConfig) (fsp : ℚ) (stats : Option PositionStats)
        (st : SlugState),
      (validate_prices d.up_ask d.down_ask d.up_ts d.down_ts d.now 2).1 = false →
      exitCheckTick d sl fsp stats st = (st, [])) := by
  constructor
  · constructor
    · intro h
      unfold validate_prices at h
      have hu : 0 < up_ts := by
        by_contra hcon
        rw [if_neg hcon, if_pos hthr] at h
        exact absurd h (by simp)
      rw [if_pos hu] at h
      have h1 : ¬thr < now - up_ts := by
        intro hcon
        rw [if_pos hcon] at h
        exact absurd h (by simp)
      rw [if_neg h1] at h
      have hdn : 0 < down_ts := by
        by_contra hcon
        rw [if_neg hcon, if_pos hthr] at h
        exact absurd h (by simp)
      rw [if_pos hdn] at h
      have h2 : ¬thr < now - down_ts := by
        intro hcon
        rw [if_pos hcon] at h
        exact absurd h (by simp)
      rw [if_neg h2] at h
      have h3 : ¬thr < |up_ts - down_ts| := by
        intro hcon
        rw [if_pos hcon] at h
        exact absurd h (by simp)
      rw [if_neg h3] at h
      have h4 : ¬(up_ask + down_ask < 95 / 100 ∨
          115 / 100 < up_ask + down_ask) := by
        intro hcon
        rw [if_pos hcon] at h
        exact absurd h (by simp)
      push_neg at h4
      exact ⟨⟨hu, not_lt.mp h1⟩, ⟨hdn, not_lt.mp h2⟩, not_lt.mp h3,
        h4.1, h4.2⟩
    · rintro ⟨⟨hu, h1⟩, ⟨hdn, h2⟩, h3, hs1, hs2⟩
      unfold validate_prices
      rw [if_pos hu, if_neg (not_lt.mpr h1), if_pos hdn,
        if_neg (not_lt.mpr h2), if_neg (not_lt.mpr h3),
        if_neg (by push_neg; exact ⟨hs1, hs2⟩)]
  · intro d sl fsp stats st hinv
    cases hst : st.status with
    | none => simp [exitCheckTick, hst]
    | some v =>
      cases stats with
      | none => simp [exitCheckTick, hst]
      | some ps => simp [exitCheckTick, hst, hinv]

/-- Witness for `validate_prices_gates_exit_checks`: an up-ask timestamp 5 s
old against the 2 s threshold makes the tick a no-op even though the
position's unrealized PnL of −12 is past the fixed −10 stop-loss. -/
theorem validate_prices_gates_exit_checks_witness :
    exitCheckTick
      { up_ask := 6 / 10, down_ask := 45 / 100, up_ts := 995, down_ts := 1000,
        now := 1000 }
      { enabled := true, sltype := .fixed, value := some (-10) } (1 / 10)
      (some { total_invested := 50, up_shares := 100, down_shares := 0,
              unrealized_pnl := -12 })
      { status := some (1 / 2), blocked := false } =
    ({ status := some (1 / 2), blocked := false }, []) :=
  (validate_prices_gates_exit_checks (6 / 10) (45 / 100) 995 1000 1000 2
    (by norm_num)).2
    { up_ask := 6 / 10, down_ask := 45 / 100, up_ts := 995, down_ts := 1000,
      now := 1000 }
    { enabled := true, sltype := .fixed, value := some (-10) } (1 / 10)
    (some { total_invested := 50, up_shares := 100, down_shares := 0,
            unrealized_pnl := -12 })
    { status := some (1 / 2), blocked := false }
    (by norm_num [validate_prices])

theorem fakGo_filled_sub_fills_sum (cfg : BuyCfg) (env : BuyEnv)
    (cs cb : Bool) (t p : ℚ) :
    ∀ (fuel k : ℕ) (s : LoopState),
      (fakGo cfg env cs cb t p k fuel s).filled -
          (fakGo cfg env cs cb t p k fuel s).fills.sum =
        s.filled - s.fills.sum := by
  intro fuel
  induction fuel with
  | zero => intro k s; rfl
  | succ n ih =>
    intro k s
    simp only [fakGo]
    split_ifs with h1 h2 h3 h4
    · rfl
    · rfl
    · rfl
    · rfl
    · cases hapi : env.api k (round2 (t - s.filled)) with
      | ok taking making =>
        rw [ih]
        simp [List.sum_append]
      | rejected msg => rw [ih]
      | exn => rw [ih]

theorem fakGo_fills_nonneg (cfg : BuyCfg) (env : BuyEnv) (cs cb : Bool)
    (t p : ℚ)
    (hfill : ∀ k sz taking making, env.api k sz = .ok taking making →
      0 ≤ taking ∧ taking ≤ sz) :
    ∀ (fuel k : ℕ) (s : LoopState), (∀ x ∈ s.fills, 0 ≤ x) →
      ∀ x ∈ (fakGo cfg env cs cb t p k fuel s).fills, 0 ≤ x := by
  intro fuel
  induction fuel with
  | zero => intro k s hs; exact hs
  | succ n ih =>
    intro k s hs
    simp only [fakGo]
    split_ifs with h1 h2 h3 h4
    · exact hs
    · exact hs
    · exact hs
    · exact hs
    · cases hapi : env.api k (round2 (t - s.filled)) with
      | ok taking making =>
        refine ih (k + 1) _ ?_
        intro x hx
        rcases List.mem_append.mp hx with hx | hx
        · exact hs x hx
        · rw [List.mem_singleton.mp hx]
          exact (hfill k _ taking making hapi).1
      | rejected msg => exact ih (k + 1) _ hs
      | exn => exact ih (k + 1) _ hs

theorem fakGo_filled_le (cfg : BuyCfg) (env : BuyEnv) (cs cb : Bool)
    (t p : ℚ)
    (hfill : ∀ k sz taking making, env.api k sz = .ok taking making →
      0 ≤ taking ∧ taking ≤ sz) :
    ∀ (fuel k : ℕ) (s : LoopState), s.filled ≤ t + 1 / 200 →
      (fakGo cfg env cs cb t p k fuel s).filled ≤ t + 1 / 200 := by
  intro fuel
  induction fuel with
  | zero => intro k s hs; exact hs
  | succ n ih =>
    intro k s hs
    simp only [fakGo]
    split_ifs with h1 h2 h3 h4
    · exact hs
    · exact hs
    · exact hs
    · exact hs
    · cases hapi : env.api k (round2 (t - s.filled)) with
      | ok taking making =>
        refine ih (k + 1) _ ?_
        push_neg at h3
        have htk : taking ≤ round2 (t - s.filled) :=
          (hfill k _ taking making hapi).2
        have hrd := round2_le (t - s.filled)
        simp only []
        linarith
      | rejected msg => exact ih (k + 1) _ hs
      | exn => exact ih (k + 1) _ hs

theorem fakGo_no_call_at_or_after_block (cfg : BuyCfg) (env : BuyEnv)
    (cs cb : Bool) (t p : ℚ) (k : ℕ)
    (hblk : (cs && (env.blocked k || cb && env.closing k)) = true) :
    ∀ (fuel k0 : ℕ) (s : LoopState), k0 ≤ k → (∀ j ∈ s.calls, j < k) →
      ∀ j ∈ (fakGo cfg env cs cb t p k0 fuel s).calls, j < k := by
  intro fuel
  induction fuel with
  | zero => intro k0 s _ hs; exact hs
  | succ n ih =>
    intro k0 s hk0 hs
    rcases eq_or_lt_of_le hk0 with rfl | hlt
    · simp only [Bool.and_eq_true, Bool.or_eq_true] at hblk
      obtain ⟨hcs, hor⟩ := hblk
      simp only [fakGo]
      rcases hor with hb | hc
      · rw [if_pos (by rw [hcs, hb]; rfl)]
        exact hs
      · by_cases hb : (cs && env.blocked k0) = true
        · rw [if_pos hb]; exact hs
        · rw [if_neg hb, if_pos (by rw [hcs, hc.1, hc.2]; rfl)]
          exact hs
    · simp only [fakGo]
      split_ifs with h1 h2 h3 h4
      · exact hs
      · exact hs
      · exact hs
      · exact hs
      · have hnext : ∀ j ∈ s.calls ++ [k0], j < k := by
          intro j hj
          rcases List.mem_append.mp hj with hj | hj
          · exact hs j hj
          · rw [List.mem_singleton.mp hj]; exact hlt
        cases hapi : env.api k0 (round2 (t - s.filled)) with
        | ok taking making => exact ih (k0 + 1) _ hlt hnext
        | rejected msg => exact ih (k0 + 1) _ hlt hnext
        | exn => exact ih (k0 + 1) _ hlt hnext

/-- C5 (amended): for every run of the FAK loop against a venue that never
reports a fill below zero or above the posted order size, the `filled_size`
of the returned `OrderResult` equals the sum of the per-attempt
`takingAmount` values, and this sum never exceeds the requested target plus
half of the 0.01-contract rounding granularity (`T + 1/200`); the strict
bound `T` of the original claim fails, see
`place_buy_order_can_overfill_target`. -/
theorem place_buy_partial_fill_sum (g : SafetyGuard) (cfg : BuyCfg)
    (hasCb : Bool) (coin : Option String) (env : BuyEnv) (contracts : ℕ)
    (ask_price : ℚ)
    (hfill : ∀ k sz taking making, env.api k sz = .ok taking making →
      0 ≤ taking ∧ taking ≤ sz)
    (hallow : (check_order_allowed g (contracts : ℚ) ask_price).1 = true)
    (hb0 : (coin.isSome && env.blocked 0) = false)
    (hc0 : (coin.isSome && hasCb && env.closing 0) = false) :
    (place_buy_order g cfg hasCb coin env contracts ask_price).filled_size =
      (buyLoopRun cfg env coin.isSome hasCb (contracts : ℚ)
        (ceil2 (ask_price * (1 + 5 / 100)))).fills.sum ∧
    (buyLoopRun cfg env coin.isSome hasCb (contracts : ℚ)
        (ceil2 (ask_price * (1 + 5 / 100)))).fills.sum ≤
      (contracts : ℚ) + 1 / 200 := by
  have hsum : (buyLoopRun cfg env coin.isSome hasCb (contracts : ℚ)
      (ceil2 (ask_price * (1 + 5 / 100)))).filled =
      (buyLoopRun cfg env coin.isSome hasCb (contracts : ℚ)
        (ceil2 (ask_price * (1 + 5 / 100)))).fills.sum := by
    have h := fakGo_filled_sub_fills_sum cfg env coin.isSome hasCb
      (contracts : ℚ) (ceil2 (ask_price * (1 + 5 / 100)))
      cfg.maxFakAttempts 1 {}
    simp only [List.sum_nil] at h
    unfold buyLoopRun
    linarith
  have hbound : (buyLoopRun cfg env coin.isSome hasCb (contracts : ℚ)
      (ceil2 (ask_price * (1 + 5 / 100)))).filled ≤ (contracts : ℚ) + 1 / 200 := by
    refine fakGo_filled_le cfg env coin.isSome hasCb (contracts : ℚ)
      (ceil2 (ask_price * (1 + 5 / 100))) hfill cfg.maxFakAttempts 1 {} ?_
    show (0 : ℚ) ≤ (contracts : ℚ) + 1 / 200
    positivity
  refine ⟨?_, hsum ▸ hbound⟩
  have hnn : 0 ≤ (buyLoopRun cfg env coin.isSome hasCb (contracts : ℚ)
      (ceil2 (ask_price * (1 + 5 / 100)))).fills.sum := by
    refine List.sum_nonneg ?_
    intro x hx
    exact fakGo_fills_nonneg cfg env coin.isSome hasCb (contracts : ℚ)
      (ceil2 (ask_price * (1 + 5 / 100))) hfill cfg.maxFakAttempts 1 {}
      (by intro y hy; cases hy) x hx
  simp only [place_buy_order, hallow, Bool.not_true, Bool.false_eq_true,
    if_false, hb0, hc0]
  by_cases hpos : 0 < (buyLoopRun cfg env coin.isSome hasCb (contracts : ℚ)
      (ceil2 (ask_price * (1 + 5 / 100)))).filled
  · rw [if_pos hpos]
    exact hsum
  · rw [if_neg hpos]
    have : (buyLoopRun cfg env coin.isSome hasCb (contracts : ℚ)
        (ceil2 (ask_price * (1 + 5 / 100)))).fills.sum = 0 := by
      rw [← hsum]
      rw [hsum] at hpos
      linarith [not_lt.mp hpos, hsum ▸ hnn]
    rw [this]

/-- Witness for `place_buy_partial_fill_sum`: a venue that rejects every
attempt yields a zero fill sum within the bound. -/
theorem place_buy_partial_fill_sum_witness :
    (place_buy_order
      { emergency_stop := false, dry_run := false, max_order_size_usd := 1000,
        max_orders_per_minute := 100, recent_orders := 0,
        invested_this_market := 0, max_total_investment := 1000 }
      {} true (some "btc")
      { blocked := fun _ => false, closing := fun _ => false,
        api := fun _ _ => .rejected "not enough balance" }
      10 (20 / 21)).filled_size =
    (buyLoopRun {}
      { blocked := fun _ => false, closing := fun _ => false,
        api := fun _ _ => .rejected "not enough balance" }
      (Option.isSome (some "btc")) true ((10 : ℕ) : ℚ)
      (ceil2 (20 / 21 * (1 + 5 / 100)))).fills.sum :=
  (place_buy_partial_fill_sum
    { emergency_stop := false, dry_run := false, max_order_size_usd := 1000,
      max_orders_per_minute := 100, recent_orders := 0,
      invested_this_market := 0, max_total_investment := 1000 }
    {} true (some "btc")
    { blocked := fun _ => false, closing := fun _ => false,
      api := fun _ _ => .rejected "not enough balance" }
    10 (20 / 21)
    (by intro k sz taking making h; cases h)
    (by norm_num [check_order_allowed]) rfl rfl).1

/-- The buy environment of the overfill counterexample: the venue fills
8.094 of the 10 posted contracts on attempt 1 and the full posted size on
every later attempt; every reported fill is nonnegative and at most the
posted order size (negative sizes are never posted and answer `exn`). -/
def overfillEnv : BuyEnv :=
  { blocked := fun _ => false, closing := fun _ => false,
    api := fun k sz =>
      if sz < 0 then .exn
      else if k = 1 then .ok (min sz (8094 / 1000)) (min sz (8094 / 1000))
      else .ok sz sz }

/-- Counterexample to C5 as stated: with target 10 and ask 20/21 (so the
aggressive limit price is exactly 1), attempt 1 fills 8.094, the remainder
1.906 is re-posted as `round(1.906, 2) = 1.91` and fully filled, so the
reported total 10.004 exceeds the requested 10 contracts. -/
theorem place_buy_order_can_overfill_target :
    (place_buy_order
      { emergency_stop := false, dry_run := false, max_order_size_usd := 1000,
        max_orders_per_minute := 100, recent_orders := 0,
        invested_this_market := 0, max_total_investment := 1000 }
      {} true (some "btc") overfillEnv 10 (20 / 21)).filled_size =
      10004 / 1000 ∧
    (10 : ℚ) <
      (place_buy_order
        { emergency_stop := false, dry_run := false, max_order_size_usd := 1000,
          max_orders_per_minute := 100, recent_orders := 0,
          invested_this_market := 0, max_total_investment := 1000 }
        {} true (some "btc") overfillEnv 10 (20 / 21)).filled_size := by
  constructor <;>
  · simp only [place_buy_order, check_order_allowed, overfillEnv, buyLoopRun,
      fakGo, round2, ceil2, BuyCfg.maxFakAttempts, BuyCfg.minOrderUsd,
      BuyCfg.targetFillPercent]
    norm_num [round_eq, min_def]

/-- C2 (amended): the blocked-market registry and the market-closing callback
are re-checked before every attempt, and a positive check aborts the loop
immediately — no venue order is posted at or after the blocked attempt index.
The dedicated block errors are returned only when the block is observed by
the checks before the first attempt; a block first observed inside the loop
ends the loop and the call returns the accumulated result instead (see
`place_buy_in_loop_block_keeps_success`). -/
theorem place_buy_block_rechecked (g : SafetyGuard) (cfg : BuyCfg)
    (hasCb : Bool) (coin : Option String) (env : BuyEnv) (contracts : ℕ)
    (ask_price : ℚ)
    (hallow : (check_order_allowed g (contracts : ℚ) ask_price).1 = true) :
    ((coin.isSome && env.blocked 0) = true →
      place_buy_order g cfg hasCb coin env contracts ask_price =
        { success := false, error := some "MARKET_BLOCKED_FOR_COIN",
          remaining_balance := 0 }) ∧
    ((coin.isSome && env.blocked 0) = false →
      (coin.isSome && hasCb && env.closing 0) = true →
      place_buy_order g cfg hasCb coin env contracts ask_price =
        { success := false,
          error := some "MARKET_CLOSING_RACE_CONDITION_BLOCKED",
          remaining_balance := 0 }) ∧
    (∀ k, 1 ≤ k →
      (coin.isSome && (env.blocked k || hasCb && env.closing k)) = true →
      ∀ j ∈ (buyLoopRun cfg env coin.isSome hasCb (contracts : ℚ)
        (ceil2 (ask_price * (1 + 5 / 100)))).calls, j < k) := by
  refine ⟨?_, ?_, ?_⟩
  · intro hb0
    simp [place_buy_order, hallow, hb0]
  · intro hb0 hc0
    simp [place_buy_order, hallow, hb0, hc0]
  · intro k hk hblk
    exact fakGo_no_call_at_or_after_block cfg env coin.isSome hasCb
      (contracts : ℚ) (ceil2 (ask_price * (1 + 5 / 100))) k hblk
      cfg.maxFakAttempts 1 {} hk (by intro j hj; cases hj)

/-- Witness for `place_buy_block_rechecked`: with the registry blocked from
the start, the call returns the dedicated atomic block error. -/
theorem place_buy_block_rechecked_witness :
    place_buy_order
      { emergency_stop := false, dry_run := false, max_order_size_usd := 1000,
        max_orders_per_minute := 100, recent_orders := 0,
        invested_this_market := 0, max_total_investment := 1000 }
      {} true (some "btc")
      { blocked := fun _ => true, closing := fun _ => false,
        api := fun _ _ => .exn }
      10 (20 / 21) =
    { success := false, error := some "MARKET_BLOCKED_FOR_COIN",
      remaining_balance := 0 } :=
  (place_buy_block_rechecked
    { emergency_stop := false, dry_run := false, max_order_size_usd := 1000,
      max_orders_per_minute := 100, recent_orders := 0,
      invested_this_market := 0, max_total_investment := 1000 }
    {} true (some "btc")
    { blocked := fun _ => true, closing := fun _ => false,
      api := fun _ _ => .exn }
    10 (20 / 21) (by norm_num [check_order_allowed])).1 rfl

/-- The buy environment of the in-loop block counterexample: attempt 1 fills
5 contracts, then the registry blocks the market from attempt 2 on. -/
def inLoopBlockEnv : BuyEnv :=
  { blocked := fun k => decide (2 ≤ k), closing := fun _ => false,
    api := fun k sz =>
      if sz < 0 then .exn
      else if k = 1 then .ok (min sz 5) (min sz 5)
      else .ok sz sz }

/-- Counterexample to C2 as stated: the block is first observed at attempt 2,
the loop aborts there, but the call returns `success := true` with
`error := none` and the 5 accumulated contracts — not an `OrderResult`
carrying a dedicated block error code. -/
theorem place_buy_in_loop_block_keeps_success :
    inLoopBlockEnv.blocked 1 = false ∧
    inLoopBlockEnv.blocked 2 = true ∧
    (place_buy_order
      { emergency_stop := false, dry_run := false, max_order_size_usd := 1000,
        max_orders_per_minute := 100, recent_orders := 0,
        invested_this_market := 0, max_total_investment := 1000 }
      {} true (some "btc") inLoopBlockEnv 10 (20 / 21)).success = true ∧
    (place_buy_order
      { emergency_stop := false, dry_run := false, max_order_size_usd := 1000,
        max_orders_per_minute := 100, recent_orders := 0,
        invested_this_market := 0, max_total_investment := 1000 }
      {} true (some "btc") inLoopBlockEnv 10 (20 / 21)).error = none ∧
    (place_buy_order
      { emergency_stop := false, dry_run := false, max_order_size_usd := 1000,
        max_orders_per_minute := 100, recent_orders := 0,
        invested_this_market := 0, max_total_investment := 1000 }
      {} true (some "btc") inLoopBlockEnv 10 (20 / 21)).filled_size = 5 := by
  refine ⟨rfl, rfl, ?_, ?_, ?_⟩ <;>
  · simp only [place_buy_order, check_order_allowed, inLoopBlockEnv,
      buyLoopRun, fakGo, round2, ceil2, BuyCfg.maxFakAttempts,
      BuyCfg.minOrderUsd, BuyCfg.targetFillPercent]
    norm_num [round_eq, min_def]

/-- The event observes some other slug as the current market. -/
def isObsOther (s : String) : MEvent → Prop
  | .observe cur _ _ _ => cur ≠ s
  | _ => False

/-- The event observes `s` itself as the current market. -/
def isObsSelf (s : String) : MEvent → Prop
  | .observe cur _ _ _ => cur = s
  | _ => False

/-- Slug monotonicity of a trace: once the feed's current market differs
from `s`, no later step observes `s` as current again.  This holds of the
real feed because slugs name strictly increasing 15-minute buckets. -/
def SlugMonotone (s : String) (l : List MEvent) : Prop :=
  List.Pairwise (fun a b => isObsOther s a → ¬isObsSelf s b) l

theorem stepSlug_closing (s : String) (st : SlugState) (e : MEvent)
    (h : st.status = some (-2)) :
    (stepSlug s st e).status = some (-2) ∨ (stepSlug s st e).status = none := by
  cases e with
  | observe cur p t w =>
    by_cases hne : cur ≠ s
    · right
      simp [stepSlug, hne]
    · left
      simp only [stepSlug, if_neg hne, h]
      norm_num
  | trigger u =>
    left
    by_cases hu : u = s
    · simp only [stepSlug, if_pos hu, h]
      norm_num
      exact h
    · simp [stepSlug, hu, h]
  | unblock u =>
    left
    by_cases hu : u = s <;> simp [stepSlug, hu, h]

theorem runSlug_none (s : String) : ∀ (l : List MEvent) (st : SlugState),
    st.status = none → (∀ e ∈ l, ¬isObsSelf s e) →
    (runSlug s st l).status = none := by
  intro l
  induction l with
  | nil => intro st h _; exact h
  | cons e rest ih =>
    intro st h hall
    simp only [runSlug, List.foldl_cons]
    refine ih (stepSlug s st e) ?_ (fun x hx => hall x (List.mem_cons_of_mem e hx))
    cases e with
    | observe cur p t w =>
      by_cases hne : cur ≠ s
      · simp [stepSlug, hne]
      · have hmem := hall (MEvent.observe cur p t w) (List.mem_cons_self _ _)
        simp only [isObsSelf] at hmem
        exact absurd (not_not.mp hne) hmem
    | trigger u =>
      by_cases hu : u = s <;> simp [stepSlug, hu, h]
    | unblock u =>
      by_cases hu : u = s <;> simp [stepSlug, hu, h]

theorem runSlug_closing (s : String) : ∀ (l : List MEvent),
    SlugMonotone s l → ∀ st : SlugState, st.status = some (-2) →
    (runSlug s st l).status = some (-2) ∨ (runSlug s st l).status = none := by
  intro l
  induction l with
  | nil => intro _ st h; left; exact h
  | cons e rest ih =>
    intro hmono st h
    obtain ⟨hhead, htail⟩ := List.pairwise_cons.mp hmono
    simp only [runSlug, List.foldl_cons]
    rcases stepSlug_closing s st e h with h2 | h2
    · exact ih htail _ h2
    · right
      have hother : isObsOther s e := by
        cases e with
        | observe cur p t w =>
          by_cases hne : cur ≠ s
          · exact hne
          · exfalso
            simp only [stepSlug, if_neg hne, h] at h2
            norm_num at h2
            exact Option.noConfusion h2
        | trigger u =>
          exfalso
          by_cases hu : u = s
          · simp only [stepSlug, if_pos hu, h] at h2
            norm_num at h2
            rw [h] at h2
            exact Option.noConfusion h2
          · simp only [stepSlug, if_neg hu] at h2
            rw [h] at h2
            exact Option.noConfusion h2
        | unblock u =>
          exfalso
          by_cases hu : u = s <;> simp [stepSlug, hu, h] at h2
      exact runSlug_none s rest _ h2 (fun b hb => hhead b hb hother)

theorem place_buy_live_closing_reject (g : SafetyGuard) (cfg : BuyCfg)
    (c : String) (env : BuyEnv) (contracts : ℕ) (ask_price : ℚ)
    (hdry : g.dry_run = false) (hcl : env.closing 0 = true) :
    (place_buy_order g cfg true (some c) env contracts ask_price).success
      = false := by
  by_cases hallow : (check_order_allowed g (contracts : ℚ) ask_price).1 = true
  · by_cases hb : env.blocked 0 = true
    · simp [place_buy_order, hallow, hb]
    · simp [place_buy_order, hallow, hb, hcl]
  · have hreason : (check_order_allowed g (contracts : ℚ) ask_price).2 ≠
        .dryRunMode := by
      unfold check_order_allowed
      split_ifs with h1 h2 h3 h4 h5 <;> simp_all
    simp [place_buy_order, hallow, hreason]

/-- C1 (amended): under a slug-monotone trace, once an exit trigger has set
the per-asset status flag of a slug to the closing value `-2`, no later step
of the system ever returns that slug's status to an active, pending or skip
value (the status stays `-2` until the slug is dropped from tracking on a
market switch), and while the flag reads `-2` every `place_buy_order` call
for the pair in live mode (dry-run disabled) returns an unsuccessful
`OrderResult`; in dry-run mode the safety check instead simulates a success
before the closing guard is consulted, see
`market_closing_dry_run_buy_succeeds`. -/
theorem market_closing_monotone (s : String) (l : List MEvent)
    (st : SlugState) (hmono : SlugMonotone s l)
    (h2 : st.status = some (-2)) :
    ((runSlug s st l).status = some (-2) ∨ (runSlug s st l).status = none) ∧
    (∀ v : ℚ, (runSlug s st l).status = some v → v = -2) ∧
    (∀ (g : SafetyGuard) (cfg : BuyCfg) (c : String) (env : BuyEnv)
        (contracts : ℕ) (ask_price : ℚ),
      g.dry_run = false →
      (runSlug s st l).status = some (-2) →
      env.closing 0 = is_market_closing (runSlug s st l) →
      (place_buy_order g cfg true (some c) env contracts ask_price).success
        = false) := by
  have hrun := runSlug_closing s l hmono st h2
  refine ⟨hrun, ?_, ?_⟩
  · intro v hv
    rcases hrun with h | h
    · rw [hv] at h
      exact Option.some_injective _ h
    · rw [hv] at h
      cases h
  · intro g cfg c env contracts ask_price hdry hst hcl
    refine place_buy_live_closing_reject g cfg c env contracts ask_price hdry ?_
    rw [hcl]
    simp [is_market_closing, hst]

/-- Witness for `market_closing_monotone`: from a closing state, a redeem
unblock step leaves the status at `-2`. -/
theorem market_closing_monotone_witness :
    (runSlug "m" { status := some (-2), blocked := true }
        [.unblock "m"]).status = some (-2) ∨
    (runSlug "m" { status := some (-2), blocked := true }
        [.unblock "m"]).status = none :=
  (market_closing_monotone "m" [.unblock "m"]
    { status := some (-2), blocked := true }
    (List.pairwise_singleton _ _) rfl).1

/-- The trace of the dry-run counterexample: the slug is observed live with
start price 5, then a stop-loss trigger closes it. -/
def dryRunTrace : List MEvent := [.observe "m" 5 300 true, .trigger "m"]

/-- Counterexample to C1 as stated: after the trigger has set the status flag
to `-2` (and blocked the registry), a `place_buy_order` call in dry-run mode
still returns a successful simulated `OrderResult`, because the safety check
answers `DRY_RUN_MODE` before either closing guard is consulted. -/
theorem market_closing_dry_run_buy_succeeds :
    (runSlug "m" { status := none, blocked := false } dryRunTrace).status
      = some (-2) ∧
    (place_buy_order
      { emergency_stop := false, dry_run := true, max_order_size_usd := 1000,
        max_orders_per_minute := 100, recent_orders := 0,
        invested_this_market := 0, max_total_investment := 1000 }
      {} true (some "btc")
      { blocked := fun _ => true,
        closing := fun _ =>
          is_market_closing
            (runSlug "m" { status := none, blocked := false } dryRunTrace),
        api := fun _ _ => .exn }
      10 (20 / 21)).success = true := by
  constructor
  · simp only [dryRunTrace, runSlug, List.foldl_cons, List.foldl_nil, stepSlug]
    norm_num
  · simp [place_buy_order, check_order_allowed]

/-- C9 (amended): for every rejected buy attempt, the `success: false`
logging branch of `place_buy_order` raises a `NameError` on the unbound name
`sell_price` at its third statement and therefore never completes normally —
but the venue's error message itself is printed in full by the first two
statements before the `NameError` (see
`buy_reject_branch_error_msg_printed`); and the FAK loop treats a rejected
response exactly like any caught per-attempt exception, continuing with the
next attempt: replacing every rejected venue response by a bare caught
exception leaves the loop's result unchanged. -/
theorem buy_reject_branch_raises (fa : ℕ) (m : String) :
    (execPrints buyScope (buyRejectBranch fa m)).2 = some "sell_price" ∧
    (execPrints buyScope (buyRejectBranch fa m)).1 =
      ["[EXECUTOR] [FAK " ++ toString fa ++ "] FAILED: " ++ m,
       "[EXECUTOR] Full API response: " ++ m] ∧
    (execPrints buyScope (buyRejectBranch fa m)).1.length <
      (buyRejectBranch fa m).length ∧
    (∀ (cfg : BuyCfg) (env env' : BuyEnv) (cs cb : Bool) (t p : ℚ)
        (fuel k : ℕ) (s : LoopState),
      env'.blocked = env.blocked → env'.closing = env.closing →
      (∀ j sz, env'.api j sz =
        match env.api j sz with
        | .rejected _ => .exn
        | o => o) →
      fakGo cfg env cs cb t p k fuel s = fakGo cfg env' cs cb t p k fuel s) := by
  refine ⟨?_, ?_, ?_, ?_⟩
  · simp [execPrints, buyRejectBranch, buyScope]
  · simp [execPrints, buyRejectBranch, buyScope]
  · simp [execPrints, buyRejectBranch, buyScope]
  · intro cfg env env' cs cb t p fuel
    induction fuel with
    | zero => intro k s _ _ _; rfl
    | succ n ih =>
      intro k s hb hc hapi
      simp only [fakGo, hb, hc]
      split_ifs with h1 h2 h3 h4
      · rfl
      · rfl
      · rfl
      · rfl
      · have h := hapi k (round2 (t - s.filled))
        cases happ : env.api k (round2 (t - s.filled)) with
        | ok taking making =>
          rw [happ] at h
          rw [h]
          exact ih (k + 1) _ hb hc hapi
        | rejected msg =>
          rw [happ] at h
          rw [h]
          exact ih (k + 1) _ hb hc hapi
        | exn =>
          rw [happ] at h
          rw [h]
          exact ih (k + 1) _ hb hc hapi

/-- Witness for `buy_reject_branch_raises`: a loop against an
always-rejecting venue equals the loop against an always-throwing venue. -/
theorem buy_reject_branch_raises_witness :
    fakGo {}
      { blocked := fun _ => false, closing := fun _ => false,
        api := fun _ _ => .rejected "not enough balance" }
      true true 10 1 1 3 {} =
    fakGo {}
      { blocked := fun _ => false, closing := fun _ => false,
        api := fun _ _ => .exn }
      true true 10 1 1 3 {} :=
  (buy_reject_branch_raises 1 "not enough balance").2.2.2 {}
    { blocked := fun _ => false, closing := fun _ => false,
      api := fun _ _ => .rejected "not enough balance" }
    { blocked := fun _ => false, closing := fun _ => false,
      api := fun _ _ => .exn }
    true true 10 1 3 1 {} rfl rfl (fun _ _ => rfl)

/-- Counterexample to C9's final clause: at a concrete rejected attempt the
venue's error message is printed in full (twice) by the two statements that
complete before the `NameError` on `sell_price`, so it is not true that the
message is never fully printed or logged. -/
theorem buy_reject_branch_error_msg_printed :
    (execPrints buyScope (buyRejectBranch 1 "not enough balance")).1 =
      ["[EXECUTOR] [FAK 1] FAILED: not enough balance",
       "[EXECUTOR] Full API response: not enough balance"] ∧
    (execPrints buyScope (buyRejectBranch 1 "not enough balance")).2 =
      some "sell_price" := by
  constructor <;> simp [execPrints, buyRejectBranch, buyScope] <;> rfl

end FourCoins
